import Mathlib

/-!
Verification of the apiris-sdk core against its specification.

The Python sources are shallowly embedded: JSON-like payloads become a
tagged union `JValue`, the per-API mutable state of the decision engine
becomes explicit values threaded through pure functions, and Python
`None` / falsy checks are modelled with `Option` and explicit emptiness
tests.  Scores and thresholds are modelled as rationals; the float
arithmetic of the source only ever feeds comparisons here, so no
rounding behaviour is load-bearing.
-/

namespace Apiris

/-- JSON-like values: the tagged union over which the SDK's recursive
traversals (masking, schema walks, structural stats) operate. -/
inductive JValue where
  | null : JValue
  | bool (b : Bool) : JValue
  | num (q : ℚ) : JValue
  | str (s : String) : JValue
  | arr (items : List JValue) : JValue
  | obj (fields : List (String × JValue)) : JValue

/-- The fixed key-pattern list of `_mask_sensitive_fields`
(interceptor.py line 24 / decision_engine.py lines 43-53). -/
def sensitive_patterns : List String :=
  ["password", "secret", "token", "api_key", "api-key", "auth", "cookie", "session", "jwt"]

/-- Python `pattern in s`: substring containment. -/
def str_contains (s pat : String) : Bool :=
  (List.range (s.length + 1)).any (fun i => List.isPrefixOf pat.data (s.data.drop i))

/-- Python `any(pattern in str(key).lower() for pattern in patterns)`. -/
def is_sensitive_key (key : String) : Bool :=
  sensitive_patterns.any (fun pat => str_contains key.toLower pat)

mutual

/-- Source `_mask_sensitive_fields(value, depth, max_depth=6)` from
interceptor.py lines 16-31 (identical copy in decision_engine.py lines
35-61): values deeper than the depth bound are returned untouched, list
items recurse, object entries whose key matches a sensitive pattern are
replaced by the string `[MASKED]`, other entries recurse. -/
def mask_sensitive_fields (v : JValue) (depth : ℕ) : JValue :=
  if depth > 6 then v
  else
    match v with
    | .null => .null
    | .bool b => .bool b
    | .num q => .num q
    | .str s => .str s
    | .arr items => .arr (mask_items items (depth + 1))
    | .obj fields => .obj (mask_fields fields (depth + 1))

/-- List comprehension of `_mask_sensitive_fields` over array items. -/
def mask_items (items : List JValue) (depth : ℕ) : List JValue :=
  match items with
  | [] => []
  | item :: rest => mask_sensitive_fields item depth :: mask_items rest depth

/-- The result-dict loop of `_mask_sensitive_fields` over object entries. -/
def mask_fields (fields : List (String × JValue)) (depth : ℕ) :
    List (String × JValue) :=
  match fields with
  | [] => []
  | (key, val) :: rest =>
      (if is_sensitive_key key then (key, JValue.str "[MASKED]")
       else (key, mask_sensitive_fields val depth)) :: mask_fields rest depth

end

theorem mask_items_nil (depth : ℕ) : mask_items [] depth = [] := by
  rw [mask_items]

theorem mask_items_cons (item : JValue) (rest : List JValue) (depth : ℕ) :
    mask_items (item :: rest) depth
      = mask_sensitive_fields item depth :: mask_items rest depth := by
  rw [mask_items]

theorem mask_fields_nil (depth : ℕ) : mask_fields [] depth = [] := by
  rw [mask_fields]

theorem mask_fields_cons (key : String) (val : JValue)
    (rest : List (String × JValue)) (depth : ℕ) :
    mask_fields ((key, val) :: rest) depth
      = (if is_sensitive_key key then (key, JValue.str "[MASKED]")
         else (key, mask_sensitive_fields val depth)) :: mask_fields rest depth := by
  rw [mask_fields]

theorem mask_null (depth : ℕ) :
    mask_sensitive_fields .null depth = .null := by
  rw [mask_sensitive_fields.eq_def]; simp

theorem mask_bool (b : Bool) (depth : ℕ) :
    mask_sensitive_fields (.bool b) depth = .bool b := by
  rw [mask_sensitive_fields.eq_def]; simp

theorem mask_num (q : ℚ) (depth : ℕ) :
    mask_sensitive_fields (.num q) depth = .num q := by
  rw [mask_sensitive_fields.eq_def]; simp

theorem mask_str (s : String) (depth : ℕ) :
    mask_sensitive_fields (.str s) depth = .str s := by
  rw [mask_sensitive_fields.eq_def]; simp

theorem mask_arr (items : List JValue) (depth : ℕ) :
    mask_sensitive_fields (.arr items) depth
      = if depth > 6 then .arr items else .arr (mask_items items (depth + 1)) := by
  rw [mask_sensitive_fields.eq_def]

theorem mask_obj (fields : List (String × JValue)) (depth : ℕ) :
    mask_sensitive_fields (.obj fields) depth
      = if depth > 6 then .obj fields
        else .obj (mask_fields fields (depth + 1)) := by
  rw [mask_sensitive_fields.eq_def]

theorem mask_deep (v : JValue) (depth : ℕ) (h : depth > 6) :
    mask_sensitive_fields v depth = v := by
  rw [mask_sensitive_fields.eq_def]
  simp only [h, if_true]

mutual

theorem mask_sensitive_fields_idem :
    ∀ (v : JValue) (depth : ℕ),
      mask_sensitive_fields (mask_sensitive_fields v depth) depth
        = mask_sensitive_fields v depth
  | v, depth => by
    by_cases h : depth > 6
    · rw [mask_deep v depth h, mask_deep v depth h]
    · cases v with
      | null => rw [mask_null, mask_null]
      | bool b => rw [mask_bool, mask_bool]
      | num q => rw [mask_num, mask_num]
      | str s => rw [mask_str, mask_str]
      | arr items =>
          rw [mask_arr, if_neg h, mask_arr, if_neg h,
            mask_items_idem items (depth + 1)]
      | obj fields =>
          rw [mask_obj, if_neg h, mask_obj, if_neg h,
            mask_fields_idem fields (depth + 1)]

theorem mask_items_idem :
    ∀ (items : List JValue) (depth : ℕ),
      mask_items (mask_items items depth) depth = mask_items items depth
  | [], depth => by rw [mask_items_nil, mask_items_nil]
  | item :: rest, depth => by
      rw [mask_items_cons, mask_items_cons,
        mask_sensitive_fields_idem item depth, mask_items_idem rest depth]

theorem mask_fields_idem :
    ∀ (fields : List (String × JValue)) (depth : ℕ),
      mask_fields (mask_fields fields depth) depth = mask_fields fields depth
  | [], depth => by rw [mask_fields_nil, mask_fields_nil]
  | (key, val) :: rest, depth => by
      rw [mask_fields_cons]
      by_cases hk : is_sensitive_key key
      · rw [if_pos hk, mask_fields_cons, if_pos hk,
          mask_fields_idem rest depth]
      · rw [if_neg hk, mask_fields_cons, if_neg hk,
          mask_sensitive_fields_idem val depth, mask_fields_idem rest depth]

end

/-- C5: the sensitive-field masking transform is idempotent — for every
JSON-like value (nested objects, arrays and scalars), masking the result
of masking `v` yields exactly the result of masking `v` once, at every
recursion depth and in particular at the public entry depth 0. -/
theorem C5_mask_idempotent :
    ∀ (v : JValue) (depth : ℕ),
      mask_sensitive_fields (mask_sensitive_fields v depth) depth
        = mask_sensitive_fields v depth := by
  intro v depth
  exact mask_sensitive_fields_idem v depth

/-! ## Decision engine: profiles, scores, action selection -/

/-- Resolved per-call profile.  `DEFAULT_PROFILE` starts with `None`
thresholds, but `_get_profile` (decision_engine.py lines 80-97)
unconditionally overwrites every threshold with a numeric config value
before any use, so the resolved profile is modelled with plain numeric
fields. -/
structure Profile where
  confidentiality_threshold : ℚ
  availability_threshold : ℚ
  integrity_threshold : ℚ
  availability_delay_threshold : ℚ
  confidentiality_weight : ℚ
  availability_weight : ℚ
  integrity_weight : ℚ
  latency_budget_ms : ℚ
  prefer : String
  delay_ms : ℚ
deriving DecidableEq

/-- The three pillar scores consumed by `_choose_action`. -/
structure Scores where
  C_score : ℚ
  A_score : ℚ
  D_score : ℚ
deriving DecidableEq

/-- Action plus tradeoff label of a decision.  The justification string
of the source is display-only float formatting and carries no decision
content, so it is not modelled. -/
structure ActionChoice where
  action : String
  tradeoff : String
deriving DecidableEq

/-- Source `DecisionEngine._enforce_integrity_priority`
(decision_engine.py lines 301-309). -/
def enforce_integrity_priority (scores : Scores) (profile : Profile) :
    Option ActionChoice :=
  if scores.D_score < profile.integrity_threshold then
    some ⟨"reject_response", "integrity_over_availability"⟩
  else none

/-- Source `DecisionEngine._choose_action` (decision_engine.py lines 311-361):
the strict-mode integrity floor, then the fixed if/elif precedence chain. -/
def choose_action (mode : String) (scores : Scores) (profile : Profile) :
    ActionChoice :=
  match (if mode = "strict" then enforce_integrity_priority scores profile
         else none) with
  | some strict_action => strict_action
  | none =>
    if scores.C_score < profile.confidentiality_threshold then
      ⟨"mask_sensitive_fields", "confidentiality_over_completeness"⟩
    else if scores.A_score < profile.availability_threshold
        ∧ scores.D_score ≥ profile.integrity_threshold then
      ⟨"serve_stale_cache", "availability_over_integrity"⟩
    else if scores.D_score < profile.integrity_threshold
        ∧ scores.A_score ≥ profile.availability_threshold then
      ⟨"reject_response", "integrity_over_availability"⟩
    else if scores.A_score < profile.availability_threshold
        ∧ scores.D_score < profile.integrity_threshold then
      if profile.prefer = "availability" then
        ⟨"serve_stale_cache", "availability_over_integrity"⟩
      else
        ⟨"downgrade_fidelity", "integrity_over_availability"⟩
    else if scores.A_score < profile.availability_delay_threshold then
      ⟨"delay_response", "integrity_over_availability"⟩
    else
      ⟨"pass_through", "none"⟩

/-- First-match-wins evaluation of an ordered rule list, the shape the
spec (§4.4 step 4) prescribes for action selection. -/
def first_match : List (Bool × ActionChoice) → ActionChoice → ActionChoice
  | [], dflt => dflt
  | (cond, act) :: rest, dflt => if cond then act else first_match rest dflt

/-- The spec's ordered rule list (§4.4 step 4, rules a-f; rule g is the
default), written from the spec's words for comparison with the code's
`choose_action`. -/
def spec_rules (mode : String) (s : Scores) (p : Profile) :
    List (Bool × ActionChoice) :=
  [ (decide (mode = "strict") && decide (s.D_score < p.integrity_threshold),
      ⟨"reject_response", "integrity_over_availability"⟩),
    (decide (s.C_score < p.confidentiality_threshold),
      ⟨"mask_sensitive_fields", "confidentiality_over_completeness"⟩),
    (decide (s.A_score < p.availability_threshold)
        && decide (s.D_score ≥ p.integrity_threshold),
      ⟨"serve_stale_cache", "availability_over_integrity"⟩),
    (decide (s.D_score < p.integrity_threshold)
        && decide (s.A_score ≥ p.availability_threshold),
      ⟨"reject_response", "integrity_over_availability"⟩),
    (decide (s.A_score < p.availability_threshold)
        && decide (s.D_score < p.integrity_threshold),
      if p.prefer = "availability" then
        ⟨"serve_stale_cache", "availability_over_integrity"⟩
      else
        ⟨"downgrade_fidelity", "integrity_over_availability"⟩),
    (decide (s.A_score < p.availability_delay_threshold),
      ⟨"delay_response", "integrity_over_availability"⟩) ]

/-- Spec rule g: the default when no rule matches. -/
def pass_through_choice : ActionChoice := ⟨"pass_through", "none"⟩

/-- C1: for every triple of scores and every resolved profile, the
engine's action selection equals first-match-wins evaluation of the
spec's fixed precedence list (strict integrity floor, mask, serve-stale,
reject, prefer-biased double breach, delay, else pass-through), and all
threshold comparisons being strict, a `D_score` exactly equal to
`integrity_threshold` never yields `reject_response` or
`downgrade_fidelity`. -/
theorem C1_action_precedence (mode : String) (s : Scores) (p : Profile) :
    choose_action mode s p = first_match (spec_rules mode s p) pass_through_choice
      ∧ (s.D_score = p.integrity_threshold →
          (choose_action mode s p).action ≠ "reject_response"
            ∧ (choose_action mode s p).action ≠ "downgrade_fidelity") := by
  constructor
  · unfold choose_action spec_rules first_match pass_through_choice
      enforce_integrity_priority
    by_cases hm : mode = "strict" <;>
      by_cases hd : s.D_score < p.integrity_threshold <;>
        simp [hm, hd, first_match, Bool.and_eq_true, decide_eq_true_eq]
  · intro hd
    have hnot : ¬ s.D_score < p.integrity_threshold := by
      rw [hd]; exact lt_irrefl _
    unfold choose_action enforce_integrity_priority
    simp only [hnot, if_false, ite_self, false_and, and_false]
    split_ifs <;> decide

theorem C1_action_precedence_witness :
    (choose_action "enforce" ⟨1, 1, 0⟩ ⟨0, 0, 0, 0, 1, 1, 1, 1000, "availability", 400⟩
        = first_match
            (spec_rules "enforce" ⟨1, 1, 0⟩ ⟨0, 0, 0, 0, 1, 1, 1, 1000, "availability", 400⟩)
            pass_through_choice)
      ∧ (choose_action "enforce" ⟨1, 1, 0⟩
            ⟨0, 0, 0, 0, 1, 1, 1, 1000, "availability", 400⟩).action ≠ "reject_response" := by
  have h := C1_action_precedence "enforce" ⟨1, 1, 0⟩
    ⟨0, 0, 0, 0, 1, 1, 1, 1000, "availability", 400⟩
  exact ⟨h.1, (h.2 rfl).1⟩

/-! ## Decision engine: sliding window and aggregation -/

/-- One `_summarize_signals` result, timestamped, as appended to the
per-API window (decision_engine.py lines 523-526). -/
structure WindowEntry where
  ts : ℤ
  confidentialitySignals : ℕ
  availabilitySignals : ℕ
  integritySignals : ℕ
  aiAnomalyScore : ℚ
deriving DecidableEq

/-- The accumulator of `DecisionEngine._aggregate_window`
(decision_engine.py lines 406-422). -/
structure Aggregates where
  total : ℕ
  confidentialitySignals : ℕ
  availabilitySignals : ℕ
  integritySignals : ℕ
  aiAnomalyScoreSum : ℚ
  aiAnomalyScoreCount : ℕ
deriving DecidableEq

/-- The append-then-prune step of `DecisionEngine.evaluate`
(decision_engine.py lines 525-526): append the fresh entry, then keep
only entries with `ts >= entry.ts - window_ms`. -/
def insert_and_prune (window : List WindowEntry) (entry : WindowEntry)
    (window_ms : ℤ) : List WindowEntry :=
  (window ++ [entry]).filter (fun item => entry.ts - window_ms ≤ item.ts)

/-- Loop body of `_aggregate_window`. -/
def aggregate_step (agg : Aggregates) (entry : WindowEntry) : Aggregates :=
  { agg with
    confidentialitySignals :=
      agg.confidentialitySignals + entry.confidentialitySignals
    availabilitySignals := agg.availabilitySignals + entry.availabilitySignals
    integritySignals := agg.integritySignals + entry.integritySignals
    aiAnomalyScoreSum :=
      if entry.aiAnomalyScore > 0 then
        agg.aiAnomalyScoreSum + entry.aiAnomalyScore
      else agg.aiAnomalyScoreSum
    aiAnomalyScoreCount :=
      if entry.aiAnomalyScore > 0 then agg.aiAnomalyScoreCount + 1
      else agg.aiAnomalyScoreCount }

/-- Source `DecisionEngine._aggregate_window` (decision_engine.py lines
406-422): totals initialised to the window length, then one additive
pass over the entries. -/
def aggregate_window (window : List WindowEntry) : Aggregates :=
  List.foldl aggregate_step ⟨window.length, 0, 0, 0, 0, 0⟩ window

theorem aggregate_foldl_counts (l : List WindowEntry) :
    ∀ (init : Aggregates),
      (List.foldl aggregate_step init l).confidentialitySignals
          = init.confidentialitySignals
              + (l.map (fun e => e.confidentialitySignals)).sum
        ∧ (List.foldl aggregate_step init l).availabilitySignals
          = init.availabilitySignals
              + (l.map (fun e => e.availabilitySignals)).sum
        ∧ (List.foldl aggregate_step init l).integritySignals
          = init.integritySignals + (l.map (fun e => e.integritySignals)).sum
        ∧ (List.foldl aggregate_step init l).total = init.total := by
  induction l with
  | nil => intro init; simp
  | cons head tail ih =>
      intro init
      have h := ih (aggregate_step init head)
      simp only [List.foldl_cons, List.map_cons, List.sum_cons]
      refine ⟨?_, ?_, ?_, ?_⟩
      · rw [h.1]; simp [aggregate_step]; omega
      · rw [h.2.1]; simp [aggregate_step]; omega
      · rw [h.2.2.1]; simp [aggregate_step]; omega
      · rw [h.2.2.2]; simp [aggregate_step]

/-- C2: after each insert into the per-API window, provided timestamps
are non-decreasing across calls (the fresh entry is the newest) and the
window span is non-negative, the fresh entry is retained, every retained
entry's timestamp lies within `window_ms` of the newest timestamp
(pruning is synchronous with the insert), and the aggregated per-pillar
signal counts over the pruned window equal the sums of the per-entry
counts, each entry counted exactly once. -/
theorem C2_window_invariant (window : List WindowEntry) (entry : WindowEntry)
    (window_ms : ℤ) (hW : 0 ≤ window_ms)
    (hmono : ∀ x ∈ window, x.ts ≤ entry.ts) :
    (entry ∈ insert_and_prune window entry window_ms)
      ∧ (∀ x ∈ insert_and_prune window entry window_ms,
          entry.ts - window_ms ≤ x.ts ∧ x.ts ≤ entry.ts)
      ∧ (aggregate_window (insert_and_prune window entry window_ms)).confidentialitySignals
          = ((insert_and_prune window entry window_ms).map
              (fun e => e.confidentialitySignals)).sum
      ∧ (aggregate_window (insert_and_prune window entry window_ms)).availabilitySignals
          = ((insert_and_prune window entry window_ms).map
              (fun e => e.availabilitySignals)).sum
      ∧ (aggregate_window (insert_and_prune window entry window_ms)).integritySignals
          = ((insert_and_prune window entry window_ms).map
              (fun e => e.integritySignals)).sum
      ∧ (aggregate_window (insert_and_prune window entry window_ms)).total
          = (insert_and_prune window entry window_ms).length := by
  have hagg := aggregate_foldl_counts (insert_and_prune window entry window_ms)
    ⟨(insert_and_prune window entry window_ms).length, 0, 0, 0, 0, 0⟩
  refine ⟨?_, ?_, ?_, ?_, ?_, ?_⟩
  · unfold insert_and_prune
    rw [List.mem_filter]
    refine ⟨by simp, by simp; omega⟩
  · intro x hx
    unfold insert_and_prune at hx
    rw [List.mem_filter] at hx
    obtain ⟨hmem, hcond⟩ := hx
    simp only [decide_eq_true_eq] at hcond
    refine ⟨hcond, ?_⟩
    rcases List.mem_append.mp hmem with hin | hin
    · exact hmono x hin
    · simp only [List.mem_singleton] at hin
      rw [hin]
  · unfold aggregate_window; simpa using hagg.1
  · unfold aggregate_window; simpa using hagg.2.1
  · unfold aggregate_window; simpa using hagg.2.2.1
  · unfold aggregate_window; simpa using hagg.2.2.2

theorem C2_window_invariant_witness :
    (0 : ℤ) ≤ 100
      ∧ ((⟨10, 2, 0, 1, 0⟩ : WindowEntry)
          ∈ insert_and_prune [⟨0, 1, 1, 0, 0⟩, ⟨5, 0, 2, 3, 0⟩] ⟨10, 2, 0, 1, 0⟩ 100)
      ∧ (aggregate_window
            (insert_and_prune [⟨0, 1, 1, 0, 0⟩, ⟨5, 0, 2, 3, 0⟩] ⟨10, 2, 0, 1, 0⟩ 100)).integritySignals
          = ((insert_and_prune [⟨0, 1, 1, 0, 0⟩, ⟨5, 0, 2, 3, 0⟩] ⟨10, 2, 0, 1, 0⟩ 100).map
              (fun e => e.integritySignals)).sum := by
  have h := C2_window_invariant [⟨0, 1, 1, 0, 0⟩, ⟨5, 0, 2, 3, 0⟩] ⟨10, 2, 0, 1, 0⟩ 100
    (by decide) (by intro x hx; fin_cases hx <;> decide)
  exact ⟨by decide, h.1, h.2.2.2.2.1⟩

/-! ## Decision engine: stale-response cache -/

/-- The `ResponseCache` dataclass (cache.py). -/
structure ResponseCache where
  ts : ℤ
  status : ℤ
  headers : List (String × String)
  body : String
  content_type : Option String
deriving DecidableEq

/-- Python `headers.get(key)`: exact-key dictionary lookup. -/
def headers_get (headers : List (String × String)) (key : String) :
    Option String :=
  (headers.find? (fun p => p.1 == key)).map (fun p => p.2)

/-- Source `DecisionEngine._update_cache` (decision_engine.py lines 501-512).
The Python truthiness guard `not response_text or not response_headers
or not response_status` is modelled explicitly: a missing (`None`) or
empty body, a missing or empty header dict, and a missing or zero
status each leave the cache untouched.  The threshold compared against
is the engine config's `integrity_threshold`. -/
def update_cache : Option ResponseCache → Option String →
    Option (List (String × String)) → Option ℤ → ℚ → ℚ → ℤ →
    Option ResponseCache
  | cache, some text, some headers, some status, d_score, integrity_threshold,
      now =>
      if text = "" ∨ headers = [] ∨ status = 0 then cache
      else if d_score < integrity_threshold then cache
      else some ⟨now, status, headers, text, headers_get headers "content-type"⟩
  | cache, none, _, _, _, _, _ => cache
  | cache, some _, none, _, _, _, _ => cache
  | cache, some _, some _, none, _, _, _ => cache

/-- C3: the per-API cache entry is overwritten with the current response
(status, headers, body, content-type from the headers, now) exactly when
the computed `D_score` meets the integrity threshold and body, headers
and status are all present and non-empty; whenever `D_score` is below
the threshold, or body, headers or status is missing/empty, the
previously stored entry is returned unchanged. -/
theorem C3_cache_update (cache : Option ResponseCache) (text : Option String)
    (headers : Option (List (String × String))) (status : Option ℤ)
    (d thr : ℚ) (now : ℤ) :
    (d < thr → update_cache cache text headers status d thr now = cache)
      ∧ (∀ t h st, text = some t → headers = some h → status = some st →
          t ≠ "" → h ≠ [] → st ≠ 0 → thr ≤ d →
          update_cache cache text headers status d thr now
            = some ⟨now, st, h, t, headers_get h "content-type"⟩)
      ∧ ((text = none ∨ text = some "" ∨ headers = none ∨ headers = some []
            ∨ status = none ∨ status = some 0) →
          update_cache cache text headers status d thr now = cache) := by
  refine ⟨?_, ?_, ?_⟩
  · intro hd
    cases text with
    | none => rw [update_cache]
    | some t =>
      cases headers with
      | none => rw [update_cache]
      | some h =>
        cases status with
        | none => rw [update_cache]
        | some st =>
          rw [update_cache]
          by_cases hg : t = "" ∨ h = [] ∨ st = 0
          · rw [if_pos hg]
          · rw [if_neg hg, if_pos hd]
  · intro t h st ht hh hst htne hhne hstne hthr
    subst ht; subst hh; subst hst
    rw [update_cache, if_neg (by tauto), if_neg (not_lt.mpr hthr)]
  · intro hcase
    cases text with
    | none => rw [update_cache]
    | some t =>
      cases headers with
      | none => rw [update_cache]
      | some h =>
        cases status with
        | none => rw [update_cache]
        | some st =>
          have hg : t = "" ∨ h = [] ∨ st = 0 := by
            rcases hcase with hc | hc | hc | hc | hc | hc <;> simp_all
          rw [update_cache, if_pos hg]

theorem C3_cache_update_witness :
    update_cache none (some "body-text")
        (some [("content-type", "application/json")]) (some 200) 1 0 5
      = some ⟨5, 200, [("content-type", "application/json")], "body-text",
          headers_get [("content-type", "application/json")] "content-type"⟩ := by
  have h := C3_cache_update none (some "body-text")
    (some [("content-type", "application/json")]) (some 200) 1 0 5
  exact h.2.1 "body-text" [("content-type", "application/json")] 200 rfl rfl rfl
    (by decide) (by decide) (by decide) (by norm_num)

/-! ## Response interceptor -/

/-- Result dict of `ResponseInterceptor.apply` (interceptor.py): keys a
branch does not set are modelled as `none`. -/
structure InterceptResult where
  status : Option ℤ
  headers : List (String × String)
  body : Option String
  modified : Bool
  modification : Option String
  actionApplied : Option String
  cacheAgeMs : Option ℤ
deriving DecidableEq

/-- Body of the `downgrade_fidelity` branch of `apply`: Python builds
`bodyHash` (`None` unless the body text is truthy), `bodyBytes` (UTF-8
byte count, 0 for a falsy body) and `status`. -/
def downgrade_body (hash_text : String → String) (response_text : Option String)
    (response_status : Option ℤ) : JValue :=
  .obj
    [ ("bodyHash",
        match response_text with
        | some t => if t = "" then .null else .str (hash_text t)
        | none => .null),
      ("bodyBytes",
        .num (match response_text with
          | some t => if t = "" then 0 else (t.utf8ByteSize : ℚ)
          | none => 0)),
      ("status",
        match response_status with
        | some st => .num (st : ℚ)
        | none => .null) ]

/-- Source `ResponseInterceptor.apply` (interceptor.py lines 35-135).  The JSON
serializer `json.dumps` and the SHA-256 hasher `_hash_text` are taken as
parameters: the claims depend only on which value is serialized or
hashed, never on the byte-level encoding.  `now` stands for
`time.time() * 1000` at the moment of the call. -/
def interceptor_apply (dumps : JValue → String) (hash_text : String → String)
    (action : String) (response_text : Option String) (parsed : Option JValue)
    (response_headers : Option (List (String × String)))
    (response_status : Option ℤ) (cache : Option ResponseCache)
    (cache_ttl_ms : ℤ) (now : ℤ) : InterceptResult :=
  let headers := response_headers.getD []
  if action = "pass_through" ∨ response_status = none then
    ⟨response_status, headers, response_text, false, none, none, none⟩
  else if action = "mask_sensitive_fields" then
    match parsed with
    | some (.obj fields) =>
        ⟨response_status, headers,
          some (dumps (mask_sensitive_fields (.obj fields) 0)), true,
          some "masked_sensitive_fields", none, none⟩
    | _ =>
        ⟨response_status, headers, response_text, false,
          some "mask_skipped_non_json", none, none⟩
  else if action = "serve_stale_cache" then
    match cache with
    | none =>
        ⟨response_status, headers, response_text, false,
          some "cache_unavailable_pass_through", some "pass_through", none⟩
    | some c =>
        if now - c.ts > cache_ttl_ms then
          ⟨response_status, headers, response_text, false,
            some "cache_expired_pass_through", some "pass_through", none⟩
        else
          ⟨some c.status, c.headers, some c.body, true,
            some "served_stale_cache", some "serve_stale_cache",
            some (now - c.ts)⟩
  else if action = "reject_response" then
    ⟨some 503, [("content-type", "application/json")],
      some (dumps (.obj [("error", .str "integrity_risk")])), true,
      some "rejected", some "reject_response", none⟩
  else if action = "downgrade_fidelity" then
    ⟨response_status, [("content-type", "application/json")],
      some (dumps (downgrade_body hash_text response_text response_status)),
      true, some "metadata_only", some "downgrade_fidelity", none⟩
  else if action = "delay_response" then
    ⟨response_status, headers, response_text, true,
      some "delayed", some "delay_response", none⟩
  else
    ⟨response_status, headers, response_text, false, none,
      some "pass_through", none⟩

theorem C4_counterexample :
    (interceptor_apply (fun _ => "") (fun _ => "") "reject_response"
        (some "live-body") none none none none 0 0).status ≠ some 503
      ∧ (interceptor_apply (fun _ => "") (fun _ => "") "reject_response"
          (some "live-body") none none none none 0 0).modified = false
      ∧ (interceptor_apply (fun _ => "") (fun _ => "") "reject_response"
          (some "live-body") none none none none 0 0).body
          = some "live-body" := by
  refine ⟨?_, ?_, ?_⟩ <;> decide

/-- C4 (amended): whenever a live response status is present, `apply`
returns a well-formed response along the claim's lines: masking with a
parsed body that is not a mapping falls back to pass-through tagged
`mask_skipped_non_json`; serve-stale with a missing cache entry falls
back tagged `cache_unavailable_pass_through` and with an expired entry
tagged `cache_expired_pass_through`; reject always yields a synthetic
503 JSON error body; downgrade always yields hash-and-byte-count
metadata only; delay returns the content unchanged.  (When the status is
absent, the first branch of `apply` returns the unmodified pass-through
response for every action — see the counterexample.) -/
theorem C4_interceptor_fallbacks (dumps : JValue → String)
    (hash_text : String → String) (response_text : Option String)
    (parsed : Option JValue) (response_headers : Option (List (String × String)))
    (st : ℤ) (cache : Option ResponseCache) (ttl now : ℤ) :
    ((∀ fields, parsed ≠ some (.obj fields)) →
        interceptor_apply dumps hash_text "mask_sensitive_fields" response_text
            parsed response_headers (some st) cache ttl now
          = ⟨some st, response_headers.getD [], response_text, false,
              some "mask_skipped_non_json", none, none⟩)
      ∧ (cache = none →
          interceptor_apply dumps hash_text "serve_stale_cache" response_text
              parsed response_headers (some st) cache ttl now
            = ⟨some st, response_headers.getD [], response_text, false,
                some "cache_unavailable_pass_through", some "pass_through",
                none⟩)
      ∧ (∀ c, cache = some c → now - c.ts > ttl →
          interceptor_apply dumps hash_text "serve_stale_cache" response_text
              parsed response_headers (some st) cache ttl now
            = ⟨some st, response_headers.getD [], response_text, false,
                some "cache_expired_pass_through", some "pass_through", none⟩)
      ∧ (interceptor_apply dumps hash_text "reject_response" response_text
            parsed response_headers (some st) cache ttl now
          = ⟨some 503, [("content-type", "application/json")],
              some (dumps (.obj [("error", .str "integrity_risk")])), true,
              some "rejected", some "reject_response", none⟩)
      ∧ (interceptor_apply dumps hash_text "downgrade_fidelity" response_text
            parsed response_headers (some st) cache ttl now
          = ⟨some st, [("content-type", "application/json")],
              some (dumps (downgrade_body hash_text response_text (some st))),
              true, some "metadata_only", some "downgrade_fidelity", none⟩)
      ∧ (interceptor_apply dumps hash_text "delay_response" response_text
            parsed response_headers (some st) cache ttl now
          = ⟨some st, response_headers.getD [], response_text, true,
              some "delayed", some "delay_response", none⟩) := by
  refine ⟨?_, ?_, ?_, ?_, ?_, ?_⟩
  · intro hp
    unfold interceptor_apply
    simp only [reduceIte, Option.some_ne_none, or_false]
    match parsed with
    | none => rfl
    | some .null => rfl
    | some (.bool b) => rfl
    | some (.num q) => rfl
    | some (.str s) => rfl
    | some (.arr items) => rfl
    | some (.obj fields) => exact absurd rfl (hp fields)
  · intro hc
    subst hc
    unfold interceptor_apply
    simp
  · intro c hc hexp
    subst hc
    unfold interceptor_apply
    simp [hexp]
  · unfold interceptor_apply
    simp
  · unfold interceptor_apply
    simp
  · unfold interceptor_apply
    simp

theorem C4_interceptor_fallbacks_witness :
    interceptor_apply (fun _ => "serialized") (fun _ => "hashed")
        "mask_sensitive_fields" (some "plain text") (some (.str "plain text"))
        none (some 200) none 0 0
      = ⟨some 200, [], some "plain text", false,
          some "mask_skipped_non_json", none, none⟩ := by
  have h := C4_interceptor_fallbacks (fun _ => "serialized")
    (fun _ => "hashed") (some "plain text") (some (.str "plain text")) none
    200 none 0 0
  exact h.1 (by intro fields hcontra; cases hcontra)

/-! ## Policy resolver -/

/-- State of one key in a policy override dict: absent, present with
value `None`, or present with a value.  Python's `dict.update` copies
every present key (`None`-valued included); `apply_to_profile` then
applies only keys that are present and not `None`. -/
inductive Ov (α : Type) where
  | absent : Ov α
  | null : Ov α
  | val (a : α) : Ov α
deriving DecidableEq

/-- Python `dict.update`: the later layer wins for every key it carries. -/
def Ov.merge {α : Type} : Ov α → Ov α → Ov α
  | x, .absent => x
  | _, .null => .null
  | _, .val a => .val a

/-- One policy override block, restricted to the keys the resolver ever
reads: the `allowed_keys` whitelist of `apply_to_profile`
(policy_manager.py lines 29-39 — note `availability_delay_threshold` is
absent from it) plus the `force_integrity_priority` flag.  Keys outside
this set are merged by the source but never read. -/
structure PolicyLayer where
  confidentiality_threshold : Ov ℚ
  availability_threshold : Ov ℚ
  integrity_threshold : Ov ℚ
  confidentiality_weight : Ov ℚ
  availability_weight : Ov ℚ
  integrity_weight : Ov ℚ
  latency_budget_ms : Ov ℚ
  delay_ms : Ov ℚ
  prefer : Ov String
  force_integrity_priority : Ov Bool
deriving DecidableEq

/-- The empty override dict. -/
def PolicyLayer.empty : PolicyLayer :=
  ⟨.absent, .absent, .absent, .absent, .absent, .absent, .absent, .absent,
    .absent, .absent⟩

/-- Source `merged.update(other)` over the modelled keys. -/
def PolicyLayer.update (a b : PolicyLayer) : PolicyLayer :=
  ⟨a.confidentiality_threshold.merge b.confidentiality_threshold,
    a.availability_threshold.merge b.availability_threshold,
    a.integrity_threshold.merge b.integrity_threshold,
    a.confidentiality_weight.merge b.confidentiality_weight,
    a.availability_weight.merge b.availability_weight,
    a.integrity_weight.merge b.integrity_weight,
    a.latency_budget_ms.merge b.latency_budget_ms,
    a.delay_ms.merge b.delay_ms,
    a.prefer.merge b.prefer,
    a.force_integrity_priority.merge b.force_integrity_priority⟩

/-- The normalized policy file shape: a global block, per-service
blocks, and per-service per-endpoint blocks. -/
structure Policy where
  global : PolicyLayer
  services : List (String × PolicyLayer)
  endpoints : List (String × List (String × PolicyLayer))
deriving DecidableEq

/-- Python mapping get over a layer dict, empty default. -/
def layer_lookup (m : List (String × PolicyLayer)) (k : String) : PolicyLayer :=
  ((m.find? (fun p => p.1 == k)).map (fun p => p.2)).getD PolicyLayer.empty

/-- Python nested get by service then endpoint, empty defaults. -/
def endpoint_lookup (m : List (String × List (String × PolicyLayer)))
    (service_name : String) (endpoint : String) : PolicyLayer :=
  layer_lookup (((m.find? (fun p => p.1 == service_name)).map
    (fun p => p.2)).getD []) endpoint

/-- Source `PolicyManager.get_effective_policy` (policy_manager.py lines
16-22): merge global, then the per-service block, then — only when the
endpoint string is truthy — the per-endpoint block. -/
def get_effective_policy (policy : Policy) (service_name : String)
    (endpoint : Option String) : PolicyLayer :=
  let merged := PolicyLayer.empty.update policy.global
  let merged := merged.update (layer_lookup policy.services service_name)
  match endpoint with
  | some e =>
      if e = "" then merged
      else merged.update (endpoint_lookup policy.endpoints service_name e)
  | none => merged

/-- Source `PolicyManager.apply_to_profile` (policy_manager.py lines 24-49):
empty effective dict returns the profile unchanged; otherwise each
whitelisted key that is present and non-`None` overrides the profile,
and a literal `True` for `force_integrity_priority` finally forces
`prefer = "integrity"`. -/
def apply_to_profile (profile : Profile) (policy : Policy)
    (service_name : String) (endpoint : Option String) : Profile :=
  let effective := get_effective_policy policy service_name endpoint
  if effective = PolicyLayer.empty then profile
  else
    let updated : Profile :=
      { profile with
        confidentiality_threshold :=
          match effective.confidentiality_threshold with
          | .val q => q | _ => profile.confidentiality_threshold
        availability_threshold :=
          match effective.availability_threshold with
          | .val q => q | _ => profile.availability_threshold
        integrity_threshold :=
          match effective.integrity_threshold with
          | .val q => q | _ => profile.integrity_threshold
        confidentiality_weight :=
          match effective.confidentiality_weight with
          | .val q => q | _ => profile.confidentiality_weight
        availability_weight :=
          match effective.availability_weight with
          | .val q => q | _ => profile.availability_weight
        integrity_weight :=
          match effective.integrity_weight with
          | .val q => q | _ => profile.integrity_weight
        latency_budget_ms :=
          match effective.latency_budget_ms with
          | .val q => q | _ => profile.latency_budget_ms
        delay_ms :=
          match effective.delay_ms with
          | .val q => q | _ => profile.delay_ms
        prefer :=
          match effective.prefer with
          | .val s => s | _ => profile.prefer }
    if effective.force_integrity_priority = Ov.val true then
      { updated with prefer := "integrity" }
    else updated

theorem C6_counterexample :
    (apply_to_profile ⟨0, 0, 0, 0, 1, 1, 1, 1000, "availability", 400⟩
        ⟨⟨.absent, .absent, .absent, .absent, .absent, .absent, .absent,
            .absent, .absent, Ov.val true⟩,
          [("svc",
            ⟨.absent, .absent, .absent, .absent, .absent, .absent, .absent,
              .absent, .absent, Ov.val false⟩)],
          []⟩
        "svc" none).prefer ≠ "integrity" := by
  decide

/-- C6 (amended): `prefer` is forced to `"integrity"` exactly when the
merged effective value of `force_integrity_priority` — the value from
the most specific layer that carries the key, later layers overriding
earlier ones — is the literal `True`; when that holds the forcing wins
regardless of any `prefer` value defined at any layer.  (A `True` at an
earlier layer that a later layer overwrites with `False` does not force,
as the counterexample shows.) -/
theorem C6_force_integrity_priority (profile : Profile) (policy : Policy)
    (service_name : String) (endpoint : Option String)
    (h : (get_effective_policy policy service_name endpoint).force_integrity_priority
        = Ov.val true) :
    (apply_to_profile profile policy service_name endpoint).prefer
      = "integrity" := by
  unfold apply_to_profile
  have hne : ¬ (get_effective_policy policy service_name endpoint
      = PolicyLayer.empty) := by
    intro he
    rw [he] at h
    exact Ov.noConfusion h
  rw [if_neg hne]
  simp only [h, reduceIte]

theorem C6_force_integrity_priority_witness :
    (apply_to_profile ⟨0, 0, 0, 0, 1, 1, 1, 1000, "availability", 400⟩
        ⟨⟨.absent, .absent, .absent, .absent, .absent, .absent, .absent,
            .absent, Ov.val "availability", .absent⟩,
          [],
          [("svc", [("/data",
            ⟨.absent, .absent, .absent, .absent, .absent, .absent, .absent,
              .absent, .absent, Ov.val true⟩)])]⟩
        "svc" (some "/data")).prefer = "integrity" := by
  apply C6_force_integrity_priority
  decide

/-! ## Observation builder: per-signature replay/drift history -/

/-- One record of `ObservationEvaluator.last_response_by_signature`,
keyed by `"METHOD url"` (evaluator.py lines 186-197). -/
structure SignatureRecord where
  hash : Option String
  ts : ℤ
  count : ℕ
deriving DecidableEq

/-- The store update of `ObservationEvaluator.evaluate` (evaluator.py
lines 193-197): the stored count is the previous count plus one whenever
a previous record exists — whatever the hashes are — and 1 otherwise. -/
def update_signature_record (previous : Option SignatureRecord)
    (response_hash : Option String) (now : ℤ) : SignatureRecord :=
  ⟨response_hash, now,
    match previous with
    | some p => p.count + 1
    | none => 1⟩

/-- Source `drift_detected` (evaluator.py line 189): a truthy current hash, an
existing previous record, and a hash different from the stored one. -/
def drift_detected (response_hash : Option String)
    (previous : Option SignatureRecord) : Bool :=
  match response_hash, previous with
  | some h, some p => !(h == "") && decide (p.hash ≠ some h)
  | _, _ => false

/-- Source `replayed_payload` (evaluator.py line 190): same guard, with the
hash equal to the stored one. -/
def replayed_payload (response_hash : Option String)
    (previous : Option SignatureRecord) : Bool :=
  match response_hash, previous with
  | some h, some p => !(h == "") && decide (p.hash = some h)
  | _, _ => false

/-- A sequence of evaluator calls for one `(method, url)` signature:
fold the store update over the observed `(hash, timestamp)` pairs. -/
def run_signature_history (calls : List (Option String × ℤ)) :
    Option SignatureRecord :=
  List.foldl
    (fun previous c => some (update_signature_record previous c.1 c.2))
    none calls

theorem C7_counterexample :
    ("hash-two" : String) ≠ "hash-one"
      ∧ drift_detected (some "hash-two")
          (some (update_signature_record none (some "hash-one") 0)) = true
      ∧ (update_signature_record
            (some (update_signature_record none (some "hash-one") 0))
            (some "hash-two") 5).count = 2 := by
  refine ⟨by decide, by decide, by decide⟩

theorem signature_foldl_count (calls : List (Option String × ℤ)) :
    ∀ (start : SignatureRecord),
      (List.foldl
          (fun previous c => some (update_signature_record previous c.1 c.2))
          (some start) calls).map (fun r => r.count)
        = some (start.count + calls.length) := by
  induction calls with
  | nil => intro start; simp
  | cons c rest ih =>
      intro start
      simp only [List.foldl_cons, List.length_cons]
      rw [ih (update_signature_record (some start) c.1 c.2)]
      simp [update_signature_record]
      omega

/-- C7 (amended): the stored per-`(method, url)` counter counts calls,
not repeats — it increments on every call that finds a previous record,
regardless of whether the response hash matches, and is never reset, so
after `n` calls it equals `n`.  Hash equality against the stored record
only decides the classification: a truthy hash equal to the stored one
yields "replayed", a truthy hash different from the stored one yields
"temporal drift". -/
theorem C7_signature_counter (calls : List (Option String × ℤ))
    (hne : calls ≠ []) :
    ((run_signature_history calls).map (fun r => r.count)
        = some calls.length)
      ∧ (∀ (p : SignatureRecord) (s : String), s ≠ "" →
          (replayed_payload (some s) (some p) = true ↔ p.hash = some s)
            ∧ (drift_detected (some s) (some p) = true ↔ p.hash ≠ some s)) := by
  constructor
  · match calls, hne with
    | c :: rest, _ =>
        unfold run_signature_history
        simp only [List.foldl_cons, List.length_cons]
        rw [signature_foldl_count rest (update_signature_record none c.1 c.2)]
        simp [update_signature_record]
        omega
  · intro p s hs
    constructor
    · unfold replayed_payload
      simp [hs]
    · unfold drift_detected
      simp [hs]

theorem C7_signature_counter_witness :
    (run_signature_history
        [(some "a", 0), (some "b", 1), (some "a", 2), (some "a", 3)]).map
        (fun r => r.count) = some 4
      ∧ (replayed_payload (some "a")
          (some ⟨some "a", 2, 3⟩) = true ↔ (⟨some "a", 2, 3⟩ : SignatureRecord).hash = some "a") := by
  have h := C7_signature_counter
    [(some "a", 0), (some "b", 1), (some "a", 2), (some "a", 3)] (by decide)
  exact ⟨h.1, (h.2 ⟨some "a", 2, 3⟩ "a" (by decide)).1⟩

/-! ## Anomaly scorer: isolation forest -/

/-- Isolation-forest node (anomaly_model.py / spec §6): a leaf carrying
a sample size, or an internal split on a feature index against a
threshold. -/
inductive IsoTree where
  | leaf (size : ℤ) : IsoTree
  | split (feature : ℕ) (threshold : ℚ) (left right : IsoTree) : IsoTree
deriving DecidableEq

/-- Source `_harmonic(n)` (anomaly_model.py lines 121-122): `H(n) = Σ 1/i,
i = 1..n`. -/
def harmonic : ℕ → ℚ
  | 0 => 0
  | n + 1 => harmonic n + 1 / ((n : ℚ) + 1)

/-- Source `_c_factor(n)` (anomaly_model.py lines 125-128):
`c(n) = 2·H(n-1) - 2(n-1)/n`, and 0 for `n ≤ 1`. -/
def c_factor (n : ℤ) : ℚ :=
  if n ≤ 1 then 0
  else 2 * harmonic (n - 1).toNat - (2 * ((n : ℚ) - 1)) / (n : ℚ)

/-- Source `_path_length(row, node, depth)` (anomaly_model.py lines 131-138).
An out-of-range feature index is modelled as the feature value 0; the
source would raise `IndexError` there, and the claims only concern
forests whose indices address the standardized row. -/
def path_length (row : List ℚ) : IsoTree → ℕ → ℚ
  | .leaf size, depth => (depth : ℚ) + c_factor size
  | .split f s l r, depth =>
      if row.getD f 0 ≤ s then path_length row l (depth + 1)
      else path_length row r (depth + 1)

/-- Number of split nodes crossed before the descent of `_path_length`
reaches its leaf. -/
def descent_depth (row : List ℚ) : IsoTree → ℕ
  | .leaf _ => 0
  | .split f s l r =>
      if row.getD f 0 ≤ s then 1 + descent_depth row l
      else 1 + descent_depth row r

/-- Size stored at the leaf that the descent of `_path_length` reaches. -/
def reached_leaf_size (row : List ℚ) : IsoTree → ℤ
  | .leaf size => size
  | .split f s l r =>
      if row.getD f 0 ≤ s then reached_leaf_size row l
      else reached_leaf_size row r

/-- The forest of one API model: a sample size and a tree list. -/
structure Forest where
  sampleSize : ℤ
  trees : List IsoTree
deriving DecidableEq

/-- Average path length over the forest's trees. -/
def avg_path_length (row : List ℚ) (trees : List IsoTree) : ℚ :=
  (trees.map (fun t => path_length row t 0)).sum / (trees.length : ℚ)

/-- Outcome of `score_isolation_forest(row, forest)` (anomaly_model.py
lines 141-146).  `earlyZero`: the empty-tree guard returns 0.0 before
any division.  `divByZero`: `c_factor(sampleSize)` is 0 and the float
division `-avg / 0.0` raises `ZeroDivisionError` in Python, so no score
is returned.  `exponentOf e`: the source returns `math.pow(2, e)` with
`e = -avg / c(sampleSize)`; the transcendental power is stated over ℝ in
the theorems. -/
inductive ForestScore where
  | earlyZero : ForestScore
  | divByZero : ForestScore
  | exponentOf (e : ℚ) : ForestScore
deriving DecidableEq

/-- Source `score_isolation_forest` (anomaly_model.py lines 141-146). -/
def score_isolation_forest (row : List ℚ) (forest : Forest) : ForestScore :=
  if forest.trees.isEmpty then .earlyZero
  else if c_factor forest.sampleSize = 0 then .divByZero
  else .exponentOf (-(avg_path_length row forest.trees)
    / c_factor forest.sampleSize)

theorem C8_counterexample :
    (Forest.mk 1 [IsoTree.leaf 1]).trees ≠ []
      ∧ score_isolation_forest [] ⟨1, [IsoTree.leaf 1]⟩
          = ForestScore.divByZero := by
  refine ⟨by decide, ?_⟩
  unfold score_isolation_forest
  norm_num [c_factor]

theorem one_le_harmonic (k : ℕ) (hk : 1 ≤ k) : 1 ≤ harmonic k := by
  induction k with
  | zero => omega
  | succ n ih =>
      rcases Nat.eq_or_lt_of_le hk with h1 | h1
      · rw [← h1]
        norm_num [harmonic]
      · have hn : 1 ≤ n := by omega
        have hpos : (0 : ℚ) < 1 / ((n : ℚ) + 1) := by positivity
        have := ih hn
        rw [harmonic]
        linarith

theorem c_factor_nonneg (n : ℤ) : 0 ≤ c_factor n := by
  unfold c_factor
  split_ifs with h
  · exact le_refl 0
  · push_neg at h
    have hn2 : (2 : ℤ) ≤ n := h
    have hh : 1 ≤ harmonic (n - 1).toNat := by
      apply one_le_harmonic
      omega
    have hnq : (0 : ℚ) < (n : ℚ) := by
      have : (0 : ℤ) < n := by omega
      exact_mod_cast this
    have hdiv : (2 * ((n : ℚ) - 1)) / (n : ℚ) ≤ 2 := by
      rw [div_le_iff₀ hnq]
      have : (1 : ℚ) ≤ (n : ℚ) := by
        have : (1 : ℤ) ≤ n := by omega
        exact_mod_cast this
      linarith
    linarith

theorem path_length_nonneg (row : List ℚ) (t : IsoTree) (depth : ℕ) :
    0 ≤ path_length row t depth := by
  induction t generalizing depth with
  | leaf size =>
      rw [path_length]
      have := c_factor_nonneg size
      positivity
  | split f s l r ihl ihr =>
      rw [path_length]
      split_ifs
      · exact ihl (depth + 1)
      · exact ihr (depth + 1)

theorem path_length_decomposition (row : List ℚ) (t : IsoTree) (depth : ℕ) :
    path_length row t depth
      = (depth : ℚ) + (descent_depth row t : ℚ)
          + c_factor (reached_leaf_size row t) := by
  induction t generalizing depth with
  | leaf size =>
      simp only [path_length, descent_depth, reached_leaf_size]
      push_cast; ring
  | split f s l r ihl ihr =>
      simp only [path_length, descent_depth, reached_leaf_size]
      by_cases hcond : row.getD f 0 ≤ s
      · simp only [hcond, if_true, ihl (depth + 1)]
        push_cast; ring
      · simp only [hcond, if_false, ihr (depth + 1)]
        push_cast; ring

/-- C8 (amended): for every standardized row and every forest with a
non-empty tree list whose `c(sampleSize)` is positive (sampleSize ≥ 2;
for sampleSize ≤ 1 the source raises `ZeroDivisionError` instead of
returning a score, see the counterexample): each tree's path length is
its descent depth plus the leaf correction `c(n) = 2·H(n-1) - 2(n-1)/n`
(0 for n ≤ 1), the score is `2 ^ (-avg / c(sampleSize))` with `avg` the
average path length, and — path lengths being non-negative whenever leaf
sizes carry non-negative corrections, which `c` always does — the
exponent is non-positive, so the score lies in (0, 1], larger meaning
more anomalous. -/
theorem C8_isolation_forest_score (row : List ℚ) (forest : Forest)
    (htrees : forest.trees ≠ [])
    (hc : 0 < c_factor forest.sampleSize) :
    (∀ t ∈ forest.trees,
        path_length row t 0
          = (descent_depth row t : ℚ) + c_factor (reached_leaf_size row t))
      ∧ score_isolation_forest row forest
          = ForestScore.exponentOf
              (-(avg_path_length row forest.trees) / c_factor forest.sampleSize)
      ∧ -(avg_path_length row forest.trees) / c_factor forest.sampleSize ≤ 0
      ∧ 0 < (2 : ℝ)
          ^ ((-(avg_path_length row forest.trees)
              / c_factor forest.sampleSize : ℚ) : ℝ)
      ∧ (2 : ℝ)
          ^ ((-(avg_path_length row forest.trees)
              / c_factor forest.sampleSize : ℚ) : ℝ) ≤ 1 := by
  have havg : 0 ≤ avg_path_length row forest.trees := by
    unfold avg_path_length
    apply div_nonneg
    · apply List.sum_nonneg
      intro x hx
      obtain ⟨t, _, ht⟩ := List.mem_map.mp hx
      rw [← ht]
      exact path_length_nonneg row t 0
    · positivity
  have hexp : -(avg_path_length row forest.trees)
      / c_factor forest.sampleSize ≤ 0 := by
    apply div_nonpos_of_nonpos_of_nonneg
    · linarith
    · exact hc.le
  have hexpR : ((-(avg_path_length row forest.trees)
      / c_factor forest.sampleSize : ℚ) : ℝ) ≤ 0 := by
    exact_mod_cast hexp
  refine ⟨?_, ?_, hexp, ?_, ?_⟩
  · intro t _
    have h := path_length_decomposition row t 0
    rw [h]
    push_cast; ring
  · unfold score_isolation_forest
    rw [if_neg (by simpa using htrees), if_neg (ne_of_gt hc)]
  · exact Real.rpow_pos_of_pos (by norm_num) _
  · exact Real.rpow_le_one_of_one_le_of_nonpos (by norm_num) hexpR

theorem C8_isolation_forest_score_witness :
    score_isolation_forest [] ⟨2, [IsoTree.leaf 1, IsoTree.leaf 1]⟩
        = ForestScore.exponentOf
            (-(avg_path_length [] [IsoTree.leaf 1, IsoTree.leaf 1])
              / c_factor 2)
      ∧ (2 : ℝ)
          ^ ((-(avg_path_length [] [IsoTree.leaf 1, IsoTree.leaf 1])
              / c_factor 2 : ℚ) : ℝ) ≤ 1 := by
  have h := C8_isolation_forest_score [] ⟨2, [IsoTree.leaf 1, IsoTree.leaf 1]⟩
    (by decide) (by norm_num [c_factor, harmonic])
  exact ⟨h.2.1, h.2.2.2.2⟩

/-! ## Configuration and profile resolution -/

/-- Source `ApirisConfig` (config.py lines 10-26), restricted to the fields the
decision path reads. -/
structure ApirisConfig where
  enable_ai : Bool
  integrity_threshold : ℚ
  availability_threshold : ℚ
  anomaly_threshold : ℚ
  mode : String
  window_ms : ℤ
  cache_ttl_ms : ℤ
  latency_budget_ms : ℚ
deriving DecidableEq

/-- The read-only `confidentiality_threshold` property (config.py lines
24-26): it returns `integrity_threshold` and admits no independent
setting. -/
def ApirisConfig.confidentiality_threshold (c : ApirisConfig) : ℚ :=
  c.integrity_threshold

/-- One entry of the per-API `profiles` dict accepted by the
`DecisionEngine` constructor and merged by plain `dict.update`
(decision_engine.py line 91); `none` marks a key the overlay does not
carry.  (A key present with value `None` would poison the later numeric
comparisons and is outside the modelled behaviour.) -/
structure ProfileOverlay where
  confidentiality_threshold : Option ℚ
  availability_threshold : Option ℚ
  integrity_threshold : Option ℚ
  availability_delay_threshold : Option ℚ
  confidentiality_weight : Option ℚ
  availability_weight : Option ℚ
  integrity_weight : Option ℚ
  latency_budget_ms : Option ℚ
  prefer : Option String
  delay_ms : Option ℚ
deriving DecidableEq

/-- Per-API profile overlay step of `_get_profile`: field-wise override by
the keys the overlay carries. -/
def apply_overlay (p : Profile) (ov : ProfileOverlay) : Profile :=
  ⟨ov.confidentiality_threshold.getD p.confidentiality_threshold,
    ov.availability_threshold.getD p.availability_threshold,
    ov.integrity_threshold.getD p.integrity_threshold,
    ov.availability_delay_threshold.getD p.availability_delay_threshold,
    ov.confidentiality_weight.getD p.confidentiality_weight,
    ov.availability_weight.getD p.availability_weight,
    ov.integrity_weight.getD p.integrity_weight,
    ov.latency_budget_ms.getD p.latency_budget_ms,
    ov.prefer.getD p.prefer,
    ov.delay_ms.getD p.delay_ms⟩

/-- Python `self.profiles.get(api)`. -/
def overlay_lookup (profiles : List (String × ProfileOverlay)) (api : String) :
    Option ProfileOverlay :=
  (profiles.find? (fun p => p.1 == api)).map (fun p => p.2)

/-- Source `DecisionEngine._get_profile` (decision_engine.py lines 80-97):
`DEFAULT_PROFILE` overwritten with config thresholds — the delay
threshold defaulting to the config availability threshold — then the
per-API profiles overlay, then the policy manager overlay, and finally
the strict-mode clamp of `integrity_threshold` and `prefer`. -/
def get_profile (config : ApirisConfig)
    (profiles : List (String × ProfileOverlay)) (policy : Option Policy)
    (api : String) (endpoint : Option String) : Profile :=
  let base : Profile :=
    ⟨config.confidentiality_threshold, config.availability_threshold,
      config.integrity_threshold, config.availability_threshold, 1, 1, 1,
      config.latency_budget_ms, "availability", 400⟩
  let p1 :=
    match overlay_lookup profiles api with
    | some ov => apply_overlay base ov
    | none => base
  let p2 :=
    match policy with
    | some pol => apply_to_profile p1 pol api endpoint
    | none => p1
  if config.mode = "strict" then
    { p2 with
      integrity_threshold := config.integrity_threshold
      prefer := "integrity" }
  else p2

/-- Source `DecisionEngine._compute_score` (decision_engine.py lines 285-286). -/
def compute_score (signal_rate : ℚ) (weight : ℚ) : ℚ :=
  max 0 (1 - signal_rate * weight)

/-- Source `DecisionEngine._compute_scores` (decision_engine.py lines 288-299);
the `integrityRate` entry of the source feeds only the AI-adjusted
display score and is not modelled. -/
def compute_scores (aggregates : Aggregates) (profile : Profile) : Scores :=
  let total : ℚ := if aggregates.total = 0 then 1 else (aggregates.total : ℚ)
  ⟨compute_score ((aggregates.confidentialitySignals : ℚ) / total)
      profile.confidentiality_weight,
    compute_score ((aggregates.availabilitySignals : ℚ) / total)
      profile.availability_weight,
    compute_score ((aggregates.integritySignals : ℚ) / total)
      profile.integrity_weight⟩

theorem apply_to_profile_keeps_delay_thr (p : Profile) (pol : Policy)
    (api : String) (ep : Option String) :
    (apply_to_profile p pol api ep).availability_delay_threshold
      = p.availability_delay_threshold := by
  unfold apply_to_profile
  dsimp only
  split_ifs <;> rfl

theorem apply_to_profile_keeps_avail (p : Profile) (pol : Policy)
    (api : String) (ep : Option String)
    (h : ∀ q, (get_effective_policy pol api ep).availability_threshold
        ≠ Ov.val q) :
    (apply_to_profile p pol api ep).availability_threshold
      = p.availability_threshold := by
  unfold apply_to_profile
  dsimp only
  split_ifs with he hf
  · rfl
  · cases hc : (get_effective_policy pol api ep).availability_threshold with
    | val q => exact absurd hc (h q)
    | absent => simp [hc]
    | null => simp [hc]
  · cases hc : (get_effective_policy pol api ep).availability_threshold with
    | val q => exact absurd hc (h q)
    | absent => simp [hc]
    | null => simp [hc]

theorem apply_to_profile_keeps_conf (p : Profile) (pol : Policy)
    (api : String) (ep : Option String)
    (h : ∀ q, (get_effective_policy pol api ep).confidentiality_threshold
        ≠ Ov.val q) :
    (apply_to_profile p pol api ep).confidentiality_threshold
      = p.confidentiality_threshold := by
  unfold apply_to_profile
  dsimp only
  split_ifs with he hf
  · rfl
  · cases hc : (get_effective_policy pol api ep).confidentiality_threshold with
    | val q => exact absurd hc (h q)
    | absent => simp [hc]
    | null => simp [hc]
  · cases hc : (get_effective_policy pol api ep).confidentiality_threshold with
    | val q => exact absurd hc (h q)
    | absent => simp [hc]
    | null => simp [hc]

theorem C9_counterexample :
    (choose_action "enforce"
        (compute_scores
          (aggregate_window
            (List.foldl (fun w e => insert_and_prune w e 300000) []
              [⟨0, 0, 1, 0, 0⟩]))
          (get_profile ⟨true, 0, 1, 0, "enforce", 300000, 300000, 1000⟩ []
            (some ⟨⟨.absent, Ov.val 0, .absent, .absent, .absent,
                .absent, .absent, .absent, .absent, .absent⟩, [], []⟩)
            "svc" none))
        (get_profile ⟨true, 0, 1, 0, "enforce", 300000, 300000, 1000⟩ []
          (some ⟨⟨.absent, Ov.val 0, .absent, .absent, .absent,
              .absent, .absent, .absent, .absent, .absent⟩, [], []⟩)
          "svc" none)).action = "delay_response" := by
  have hprof : get_profile ⟨true, 0, 1, 0, "enforce", 300000, 300000, 1000⟩ []
      (some ⟨⟨.absent, Ov.val 0, .absent, .absent, .absent, .absent, .absent,
          .absent, .absent, .absent⟩, [], []⟩) "svc" none
      = ⟨0, 0, 0, 1, 1, 1, 1, 1000, "availability", 400⟩ := by
    rfl
  have hwin : List.foldl (fun w e => insert_and_prune w e 300000) []
      [(⟨0, 0, 1, 0, 0⟩ : WindowEntry)] = [⟨0, 0, 1, 0, 0⟩] := by
    rfl
  have hscores : compute_scores (aggregate_window [⟨0, 0, 1, 0, 0⟩])
      ⟨0, 0, 0, 1, 1, 1, 1, 1000, "availability", 400⟩ = ⟨1, 0, 1⟩ := by
    norm_num [compute_scores, compute_score, aggregate_window, aggregate_step]
  rw [hwin, hprof, hscores]
  norm_num [choose_action, enforce_integrity_priority]

theorem choose_action_delay_conditions (mode : String) (s : Scores)
    (p : Profile)
    (h : (choose_action mode s p).action = "delay_response") :
    p.availability_threshold ≤ s.A_score
      ∧ s.A_score < p.availability_delay_threshold := by
  unfold choose_action enforce_integrity_priority at h
  by_cases hm : mode = "strict"
  · simp only [hm, if_true, reduceIte] at h
    by_cases hd : s.D_score < p.integrity_threshold
    · simp only [hd, if_true, reduceIte] at h
      exact absurd h (by decide)
    · simp only [hd, if_false, reduceIte] at h
      split_ifs at h <;>
        first
          | exact absurd h (by decide)
          | (rcases le_or_lt p.availability_threshold s.A_score with hge | hlt
             · exact ⟨hge, by assumption⟩
             · exfalso
               rcases lt_or_le s.D_score p.integrity_threshold with hd1 | hd2
               · tauto
               · tauto)
  · simp only [hm, if_false, reduceIte] at h
    split_ifs at h <;>
      first
        | exact absurd h (by decide)
        | (rcases le_or_lt p.availability_threshold s.A_score with hge | hlt
           · exact ⟨hge, by assumption⟩
           · exfalso
             rcases lt_or_le s.D_score p.integrity_threshold with hd1 | hd2
             · tauto
             · tauto)

/-- C9 (amended): the delay branch is dead exactly as long as the
resolved profile's `availability_delay_threshold` equals its
`availability_threshold` — whenever they coincide, `_choose_action`
never returns `delay_response` — and they do coincide whenever neither
the per-API profiles overlay nor any policy layer carries an
`availability_threshold` override, since `availability_delay_threshold`
itself is absent from the policy whitelist and defaults to the config
availability threshold.  (A policy that lowers `availability_threshold`
below the config value separates the two thresholds and makes the delay
branch reachable, as the counterexample shows.) -/
theorem C9_delay_branch (mode : String) (s : Scores) (p : Profile)
    (config : ApirisConfig) (profiles : List (String × ProfileOverlay))
    (policy : Option Policy) (api : String) (endpoint : Option String)
    (hp : p.availability_delay_threshold = p.availability_threshold)
    (hov : ∀ ov, overlay_lookup profiles api = some ov →
        ov.availability_threshold = none
          ∧ ov.availability_delay_threshold = none)
    (hpol : ∀ pol, policy = some pol →
        ∀ q, (get_effective_policy pol api endpoint).availability_threshold
          ≠ Ov.val q) :
    (choose_action mode s p).action ≠ "delay_response"
      ∧ (get_profile config profiles policy api endpoint).availability_delay_threshold
          = (get_profile config profiles policy api endpoint).availability_threshold := by
  constructor
  · intro hcontra
    obtain ⟨hge, hlt⟩ := choose_action_delay_conditions mode s p hcontra
    rw [hp] at hlt
    exact absurd hlt (not_lt.mpr hge)
  · unfold get_profile
    dsimp only
    cases hlook : overlay_lookup profiles api with
    | none =>
        cases policy with
        | none => split_ifs <;> rfl
        | some pol =>
            split_ifs <;>
              (dsimp only
               rw [apply_to_profile_keeps_delay_thr,
                 apply_to_profile_keeps_avail _ pol api endpoint (hpol pol rfl)]
               try rfl)
    | some ov =>
        obtain ⟨hava, havd⟩ := hov ov hlook
        cases policy with
        | none =>
            split_ifs <;>
              (dsimp only
               simp [apply_overlay, hava, havd])
        | some pol =>
            split_ifs <;>
              (dsimp only
               rw [apply_to_profile_keeps_delay_thr,
                 apply_to_profile_keeps_avail _ pol api endpoint (hpol pol rfl)]
               simp [apply_overlay, hava, havd])

theorem C9_delay_branch_witness :
    (choose_action "enforce" ⟨1, 0, 1⟩
          ⟨0, 1/2, 0, 1/2, 1, 1, 1, 1000, "availability", 400⟩).action
        ≠ "delay_response"
      ∧ (get_profile ⟨true, 0, 1/2, 0, "enforce", 300000, 300000, 1000⟩ []
            none "svc" none).availability_delay_threshold
          = (get_profile ⟨true, 0, 1/2, 0, "enforce", 300000, 300000, 1000⟩ []
              none "svc" none).availability_threshold := by
  have h := C9_delay_branch "enforce" ⟨1, 0, 1⟩
    ⟨0, 1/2, 0, 1/2, 1, 1, 1, 1000, "availability", 400⟩
    ⟨true, 0, 1/2, 0, "enforce", 300000, 300000, 1000⟩ [] none "svc" none
    rfl (by intro ov hov; exact Option.noConfusion hov)
    (by intro pol hpol; exact Option.noConfusion hpol)
  exact h

/-- C10: `ApirisConfig.confidentiality_threshold` is a read-only mirror
of the configured `integrity_threshold`, so for every configuration the
two are equal; and unless a policy overlay (the per-API profiles overlay
or a policy layer) sets `confidentiality_threshold` explicitly, the
resolved profile's confidentiality threshold — the one that gates
`mask_sensitive_fields` — equals the configured integrity threshold. -/
theorem C10_conf_mirrors_integrity (config : ApirisConfig)
    (profiles : List (String × ProfileOverlay)) (policy : Option Policy)
    (api : String) (endpoint : Option String)
    (hov : ∀ ov, overlay_lookup profiles api = some ov →
        ov.confidentiality_threshold = none)
    (hpol : ∀ pol, policy = some pol →
        ∀ q, (get_effective_policy pol api endpoint).confidentiality_threshold
          ≠ Ov.val q) :
    config.confidentiality_threshold = config.integrity_threshold
      ∧ (get_profile config profiles policy api endpoint).confidentiality_threshold
          = config.integrity_threshold := by
  refine ⟨rfl, ?_⟩
  unfold get_profile
  dsimp only
  cases hlook : overlay_lookup profiles api with
  | none =>
      cases policy with
      | none => split_ifs <;> rfl
      | some pol =>
          split_ifs <;>
            (dsimp only
             rw [apply_to_profile_keeps_conf _ pol api endpoint (hpol pol rfl)]
             try rfl)
  | some ov =>
      have hconf := hov ov hlook
      cases policy with
      | none =>
          split_ifs <;>
            (dsimp only
             simp [apply_overlay, hconf, ApirisConfig.confidentiality_threshold])
      | some pol =>
          split_ifs <;>
            (dsimp only
             rw [apply_to_profile_keeps_conf _ pol api endpoint (hpol pol rfl)]
             simp [apply_overlay, hconf,
               ApirisConfig.confidentiality_threshold])

theorem C10_conf_mirrors_integrity_witness :
    (⟨true, 3/5, 1/2, 0, "enforce", 300000, 300000, 1000⟩ :
          ApirisConfig).confidentiality_threshold = 3/5
      ∧ (get_profile ⟨true, 3/5, 1/2, 0, "enforce", 300000, 300000, 1000⟩ []
          none "svc" none).confidentiality_threshold = 3/5 := by
  have h := C10_conf_mirrors_integrity
    ⟨true, 3/5, 1/2, 0, "enforce", 300000, 300000, 1000⟩ [] none "svc" none
    (by intro ov hov; exact Option.noConfusion hov)
    (by intro pol hpol; exact Option.noConfusion hpol)
  exact ⟨h.1, h.2⟩

end Apiris
